import Mathlib

/-!
Verification of the Task Lifecycle Engine of the provider-tasking service
(`services/provider-tasking/app/service.py` together with its data model in
`models.py` and request schemas in `schemas.py`).

The embedding is shallow: Python strings are modelled as `String`/`List Char`,
JSON-safe values as the inductive `Json`, database state as explicit lists of
rows, and the service operations `create_task` / `set_status` as pure
functions from state to state.  `json.dumps(value, sort_keys=True)` — the
canonical serialization used by `_payload_signature` — is modelled character
by character after CPython's `json` encoder (`ensure_ascii` escaping, `", "` /
`": "` separators, keys of objects emitted in sorted order; Python compares
strings by code point, modelled by `keyLt`).
-/

namespace ProviderTasking

/-- JSON-safe values (`dict`/`list`/`str`/`int`/`bool`/`None`), the payloads
stored in the JSON columns of `Task`.  Objects are association lists; objects
originating from Python `dict`s always carry pairwise-distinct keys. -/
inductive Json where
  | null
  | bool (b : Bool)
  | int (n : Int)
  | str (s : String)
  | arr (elems : List Json)
  | obj (fields : List (String × Json))

/-- Lowercase hexadecimal digit, as produced by CPython's `"%04x"` format. -/
def hexDig (n : Nat) : Char :=
  if n < 10 then Char.ofNat (48 + n) else Char.ofNat (87 + n)

/-- Four-digit lowercase hexadecimal rendering of `n < 0x10000`. -/
def hex4 (n : Nat) : List Char :=
  [hexDig (n / 4096 % 16), hexDig (n / 256 % 16), hexDig (n / 16 % 16), hexDig (n % 16)]

/-- Escape of a single character inside a JSON string literal, following
CPython's `json.encoder.py_encode_basestring_ascii` (the `ensure_ascii=True`
default used by `json.dumps`): the short table escapes, `\uXXXX` for other
control characters and for non-ASCII characters, surrogate pairs beyond the
basic multilingual plane, and the character itself for printable ASCII. -/
def escChar (c : Char) : List Char :=
  if c = '\\' then ['\\', '\\']
  else if c = '"' then ['\\', '"']
  else if c = Char.ofNat 8 then ['\\', 'b']
  else if c = Char.ofNat 12 then ['\\', 'f']
  else if c = '\n' then ['\\', 'n']
  else if c = '\r' then ['\\', 'r']
  else if c = '\t' then ['\\', 't']
  else if c.toNat < 0x20 then '\\' :: 'u' :: hex4 c.toNat
  else if c.toNat < 0x7f then [c]
  else if c.toNat ≤ 0xffff then '\\' :: 'u' :: hex4 c.toNat
  else
    let v := c.toNat - 0x10000
    '\\' :: 'u' :: hex4 (0xd800 + v / 0x400) ++ '\\' :: 'u' :: hex4 (0xdc00 + v % 0x400)

/-- Escape of a whole string body (no surrounding quotes). -/
def esc : List Char → List Char
  | [] => []
  | c :: rest => escChar c ++ esc rest

/-- Numeric value of a lowercase hexadecimal digit. -/
def hexVal (c : Char) : Nat :=
  if 48 ≤ c.toNat ∧ c.toNat ≤ 57 then c.toNat - 48
  else if 97 ≤ c.toNat ∧ c.toNat ≤ 102 then c.toNat - 87
  else 0

/-- One-step decoder for `escChar`: reads exactly one escaped character from
the front of an escaped stream.  A raw `"` (the closing quote of a JSON
string literal — never produced by `escChar`) and a dangling `\` decode to
`none`.  This is a proof device used to show `esc` is injective. -/
def decodeOne : List Char → Option (Char × List Char)
  | [] => none
  | c :: rest =>
    if c = '"' then none
    else if c = '\\' then
      match rest with
      | [] => none
      | e :: rest2 =>
        if e = '\\' then some ('\\', rest2)
        else if e = '"' then some ('"', rest2)
        else if e = 'b' then some (Char.ofNat 8, rest2)
        else if e = 'f' then some (Char.ofNat 12, rest2)
        else if e = 'n' then some ('\n', rest2)
        else if e = 'r' then some ('\r', rest2)
        else if e = 't' then some ('\t', rest2)
        else if e = 'u' then
          match rest2 with
          | h1 :: h2 :: h3 :: h4 :: rest3 =>
            let v := ((hexVal h1 * 16 + hexVal h2) * 16 + hexVal h3) * 16 + hexVal h4
            if 0xd800 ≤ v ∧ v < 0xdc00 then
              match rest3 with
              | b1 :: u2 :: g1 :: g2 :: g3 :: g4 :: rest4 =>
                if b1 = '\\' ∧ u2 = 'u' then
                  let w := ((hexVal g1 * 16 + hexVal g2) * 16 + hexVal g3) * 16 + hexVal g4
                  some (Char.ofNat (0x10000 + (v - 0xd800) * 0x400 + (w - 0xdc00)), rest4)
                else none
              | _ => none
            else some (Char.ofNat v, rest3)
          | _ => none
        else none
    else some (c, rest)

/-- Python compares strings lexicographically by code point; `sorted` and the
`sort_keys=True` mode of `json.dumps` order `dict` keys by this relation. -/
def keyLt : List Char → List Char → Bool
  | [], [] => false
  | [], _ :: _ => true
  | _ :: _, [] => false
  | a :: as, b :: bs =>
    if a.toNat < b.toNat then true
    else if b.toNat < a.toNat then false
    else keyLt as bs

/-- Stable insertion into a key-sorted association list.  Together with
`sortPairs` this models Python's stable `sorted(d.items())`: because the keys
of a Python `dict` are pairwise distinct, ordering by key alone is total on
the lists that actually occur. -/
def insertPair (p : String × List Char) :
    List (String × List Char) → List (String × List Char)
  | [] => [p]
  | q :: rest => if keyLt q.1.data p.1.data then q :: insertPair p rest else p :: q :: rest

/-- `sorted(d.items())` as used by `json.dumps(..., sort_keys=True)`. -/
def sortPairs : List (String × List Char) → List (String × List Char)
  | [] => []
  | p :: rest => insertPair p (sortPairs rest)

/-- `true` / `false`, CPython's JSON rendering of booleans. -/
def boolChars : Bool → List Char
  | true => ['t', 'r', 'u', 'e']
  | false => ['f', 'a', 'l', 's', 'e']

/-- Renders an already-serialized, already-sorted field list as the body of a
JSON object, with CPython's default `", "` item and `": "` key separators. -/
def dumpsObj : List (String × List Char) → List Char
  | [] => []
  | [(k, v)] => '"' :: esc k.data ++ '"' :: ':' :: ' ' :: v
  | (k, v) :: q :: rest => '"' :: esc k.data ++ '"' :: ':' :: ' ' :: v ++ ',' :: ' ' ::
      dumpsObj (q :: rest)

mutual
/-- `json.dumps(value, sort_keys=True)` on JSON-safe values, character by
character after CPython's encoder: `null`/`true`/`false` keywords, decimal
integers, escaped and quoted strings, `", "`-separated arrays in element
order, and objects with their keys serialized in sorted order.  Serializing
each value before sorting the (key, rendered value) pairs is
output-equivalent to CPython's sort-then-serialize because the comparison
touches only the keys, which are pairwise distinct in any Python `dict`. -/
def dumps : Json → List Char
  | .null => "null".data
  | .bool b => boolChars b
  | .int n => (toString n).data
  | .str s => '"' :: esc s.data ++ ['"']
  | .arr es => '[' :: dumpsArr es ++ [']']
  | .obj kvs => '{' :: dumpsObj (sortPairs (dumpsPairs kvs)) ++ ['}']

/-- Array elements in order, separated by `", "`. -/
def dumpsArr : List Json → List Char
  | [] => []
  | [e] => dumps e
  | e :: f :: rest => dumps e ++ ',' :: ' ' :: dumpsArr (f :: rest)

/-- Serializes the value of every field, keeping the field order. -/
def dumpsPairs : List (String × Json) → List (String × List Char)
  | [] => []
  | (k, v) :: rest => (k, dumps v) :: dumpsPairs rest
end

/-! ## Data model (`models.py`, `schemas.py`) -/

/-- `TaskStatus` enumeration of `models.py`. -/
inductive TaskStatus where
  | new
  | assigned
  | in_progress
  | done
  | failed
  | cancelled
deriving DecidableEq

/-- The `ALLOWED_TRANSITIONS` dict literal of `service.py`: `cancelled` has no
entry, and no allowed set contains it as a target. -/
def ALLOWED_TRANSITIONS : TaskStatus → Option (List TaskStatus)
  | .new => some [.assigned, .failed]
  | .assigned => some [.in_progress, .failed]
  | .in_progress => some [.done, .failed]
  | .done => some []
  | .failed => some []
  | .cancelled => none

/-- `ALLOWED_TRANSITIONS.get(task.status, set())` as used by `set_status`. -/
def allowedNext (s : TaskStatus) : List TaskStatus := (ALLOWED_TRANSITIONS s).getD []

/-- Datetimes, modelled by their ISO-8601 rendering (the form in which
`pydantic_encoder` serializes them into JSON payloads); the rendering is
injective on datetimes, so equality of renderings models equality of
datetimes. -/
abbrev DateTime := String

/-- `Location` schema: `{terminal, zone, gate}`, each optional. -/
structure Location where
  terminal : Option String
  zone : Option String
  gate : Option String
deriving DecidableEq

/-- `Flight` schema: `{iata, std}`, each optional. -/
structure Flight where
  iata : Option String
  std : Option DateTime
deriving DecidableEq

/-- `ChecklistItem` schema: `{key, title, required, done}`. -/
structure ChecklistItem where
  key : String
  title : String
  required : Bool
  done : Bool
deriving DecidableEq

/-- Pydantic's encoding of an optional string field. -/
def optStr : Option String → Json
  | none => .null
  | some s => .str s

/-- `pydantic_encoder` on a `Location` model: a dict in field declaration
order. -/
def encodeLocation (l : Location) : Json :=
  .obj [("terminal", optStr l.terminal), ("zone", optStr l.zone), ("gate", optStr l.gate)]

/-- `pydantic_encoder` on a `Flight` model. -/
def encodeFlight (f : Flight) : Json :=
  .obj [("iata", optStr f.iata), ("std", optStr f.std)]

/-- `pydantic_encoder` on a `ChecklistItem` model. -/
def encodeChecklistItem (it : ChecklistItem) : Json :=
  .obj [("key", .str it.key), ("title", .str it.title), ("required", .bool it.required),
    ("done", .bool it.done)]

/-- `TaskCreate` request schema: every field after the two mandatory strings
is optional, `customer_hint` is a free-form dict. -/
structure TaskCreate where
  order_item_id : String
  service_type : String
  provider_id : Option String
  location : Option Location
  flight : Option Flight
  customer_hint : Option (List (String × Json))
  checklist : Option (List ChecklistItem)
  sla_due_at : Option DateTime

/-- A persisted `tasks` row.  `created_at` / `updated_at` carry the
server-side clock value (`func.now()`), modelled as an integer timestamp
passed into each operation. -/
structure Task where
  id : Nat
  order_item_id : String
  service_type : String
  provider_id : Option String
  location : Option Json
  flight : Option Json
  customer_hint : Option Json
  status : TaskStatus
  checklist : Option Json
  sla_due_at : Option DateTime
  created_at : Int
  updated_at : Int

/-- A persisted `task_events` row (the autoincrement id and server timestamp
are not modelled; events live in the append-only `DB.events` list, whose
order is insertion order). -/
structure TaskEvent where
  task_id : Nat
  code : String
  payload : Option Json

/-- The relational store: task rows, the append-only event log, and the
generator of fresh task ids (`uuid4` in the source, modelled as a counter —
all that matters is freshness). -/
structure DB where
  tasks : List Task
  events : List TaskEvent
  next_id : Nat

/-! ## Service operations (`service.py`) -/

/-- `_jsonable`: convert a value to a JSON-safe object.
`json.loads(json.dumps(v))` is the identity on JSON-safe trees (CPython
dicts preserve insertion order), so on already-encoded `Json` values the
function is the identity; the pydantic-model-to-dict encoding it performs on
`Location` / `Flight` / `ChecklistItem` inputs is the `encode*` family
above. -/
def _jsonable (v : Option Json) : Option Json := v

/-- Python's `x or []` on an optional JSON list: `None` yields `[]`, a list
is returned unchanged (`[] or []` is again `[]`, so mapping `some j` to `j`
is value-correct also for the falsy empty list; every call site passes a
list). -/
def pyOrEmpty : Option Json → Json
  | none => .arr []
  | some j => j

/-- The inner `_dump` of `_payload_signature`: `"null"` for `None`, else
`json.dumps(value, default=pydantic_encoder, sort_keys=True)`. -/
def _dump : Option Json → List Char
  | none => "null".data
  | some v => dumps v

/-- The normalized payload signature tuple returned by `_payload_signature`:
`(provider_id, dump(location), dump(flight), dump(customer_hint),
dump(checklist or []), sla_due_at)`. -/
structure Signature where
  provider_id : Option String
  location_s : List Char
  flight_s : List Char
  customer_hint_s : List Char
  checklist_s : List Char
  sla_due_at : Option DateTime
deriving DecidableEq

/-- `_payload_signature` of `service.py`. -/
def _payload_signature (provider_id : Option String)
    (location flight customer_hint checklist : Option Json)
    (sla_due_at : Option DateTime) : Signature :=
  { provider_id := provider_id
    location_s := _dump location
    flight_s := _dump flight
    customer_hint_s := _dump customer_hint
    checklist_s := _dump (some (pyOrEmpty checklist))
    sla_due_at := sla_due_at }

/-- The signature `create_task` computes for a stored candidate row
(`provider_id=existing_task.provider_id, ..., checklist=existing_task.checklist
or []`). -/
def storedSignature (t : Task) : Signature :=
  _payload_signature t.provider_id t.location t.flight t.customer_hint
    (some (pyOrEmpty t.checklist)) t.sla_due_at

/-- The signature `create_task` computes for the incoming request, after
converting the payload fields to JSON-safe form
(`location_payload = _jsonable(data.location)` and so on;
`checklist_payload = _jsonable(data.checklist or [])`). -/
def requestSignature (data : TaskCreate) : Signature :=
  _payload_signature data.provider_id
    (_jsonable (data.location.map encodeLocation))
    (_jsonable (data.flight.map encodeFlight))
    (_jsonable (data.customer_hint.map Json.obj))
    (some (.arr ((data.checklist.getD []).map encodeChecklistItem)))
    data.sla_due_at

/-- The duplicate scan of `create_task`: restrict to candidates sharing
`(order_item_id, service_type)`, then return the first whose stored-field
signature equals the incoming request's signature. -/
def findDuplicate (db : DB) (data : TaskCreate) : Option Task :=
  (db.tasks.filter fun t =>
      t.order_item_id == data.order_item_id && t.service_type == data.service_type).find?
    fun t => decide (storedSignature t = requestSignature data)

/-- The new `Task` row inserted by `create_task` when no duplicate exists:
payload fields stored in JSON-safe form, status defaulted to `new`,
timestamps set by the store. -/
def mkNewTask (db : DB) (data : TaskCreate) (now : Int) : Task :=
  { id := db.next_id
    order_item_id := data.order_item_id
    service_type := data.service_type
    provider_id := data.provider_id
    location := _jsonable (data.location.map encodeLocation)
    flight := _jsonable (data.flight.map encodeFlight)
    customer_hint := _jsonable (data.customer_hint.map Json.obj)
    status := .new
    checklist := some (.arr ((data.checklist.getD []).map encodeChecklistItem))
    sla_due_at := data.sla_due_at
    created_at := now
    updated_at := now }

/-- `create_task`: return the first stored duplicate unchanged, else insert a
new row plus a single `CREATED` event (payload `None`) and return the new
task. -/
def create_task (db : DB) (data : TaskCreate) (now : Int) : Task × DB :=
  match findDuplicate db data with
  | some t => (t, db)
  | none =>
    let task := mkNewTask db data now
    (task,
      { tasks := db.tasks ++ [task]
        events := db.events ++ [{ task_id := db.next_id, code := "CREATED", payload := none }]
        next_id := db.next_id + 1 })

/-- The failure modes of `set_status`: `NoResultFound` raised by
`scalar_one()` when the task id matches no row, and the service's own
`InvalidStatusTransition(current, new)` carrying the pair (current status,
attempted target). -/
inductive SetStatusError where
  | noResultFound
  | invalidStatusTransition (current target : TaskStatus)
deriving DecidableEq

/-- `set_status`: look up the task under an exclusive row lock (concurrency
is serialized by the lock, so one sequential step models one transition
attempt).  A target equal to the current status returns the task unchanged;
a target in the allowed set updates the row (`updated_at` refreshed by the
store's `onupdate=func.now()`) and appends exactly one event; anything else
raises without touching the store.  The returned `DB` is the store after the
call. -/
def set_status (db : DB) (task_id : Nat) (new_status : TaskStatus) (event : String)
    (payload : Option Json) (now : Int) : Except SetStatusError Task × DB :=
  match db.tasks.find? (fun t => t.id == task_id) with
  | none => (.error .noResultFound, db)
  | some task =>
    if new_status = task.status then (.ok task, db)
    else if new_status ∈ allowedNext task.status then
      (.ok { task with status := new_status, updated_at := now },
        { db with
          tasks := db.tasks.map fun t =>
            if t.id == task_id then { t with status := new_status, updated_at := now } else t
          events := db.events ++
            [{ task_id := task_id, code := event, payload := _jsonable payload }] })
    else (.error (.invalidStatusTransition task.status new_status), db)

/-! ## Request parsing (pydantic layer of `schemas.py`)

An optional request field arrives absent, explicitly `null`, or with a
value; pydantic's `Optional[...] = None` fields map the first two to the
same `None`. -/

/-- A raw optional field of the HTTP request body. -/
inductive RawOpt (α : Type) where
  | absent
  | null
  | val (a : α)

/-- Pydantic parsing of an `Optional[...] = None` field. -/
def RawOpt.parse {α : Type} : RawOpt α → Option α
  | .absent => none
  | .null => none
  | .val a => some a

/-- A raw `POST /tasks` body before validation. -/
structure RawTaskCreate where
  order_item_id : String
  service_type : String
  provider_id : RawOpt String
  location : RawOpt Location
  flight : RawOpt Flight
  customer_hint : RawOpt (List (String × Json))
  checklist : RawOpt (List ChecklistItem)
  sla_due_at : RawOpt DateTime

/-- Validation of a raw body into a `TaskCreate`. -/
def parseTaskCreate (r : RawTaskCreate) : TaskCreate :=
  { order_item_id := r.order_item_id
    service_type := r.service_type
    provider_id := r.provider_id.parse
    location := r.location.parse
    flight := r.flight.parse
    customer_hint := r.customer_hint.parse
    checklist := r.checklist.parse
    sla_due_at := r.sla_due_at.parse }

/-- Store states reachable through the service interface: the empty store,
then any interleaving of `create_task` calls and successful `set_status`
calls (failed `set_status` calls leave the store unchanged, so they add no
new states). -/
inductive Reachable : DB → Prop where
  | init : Reachable ⟨[], [], 0⟩
  | create (db : DB) (data : TaskCreate) (now : Int) :
      Reachable db → Reachable (create_task db data now).2
  | step (db : DB) (task_id : Nat) (new_status : TaskStatus) (event : String)
      (payload : Option Json) (now : Int) (t : Task) (db' : DB) :
      Reachable db → set_status db task_id new_status event payload now = (.ok t, db') →
      Reachable db'

/-! ## Derived serialized forms and concrete example inputs -/

/-- The serialized form of one checklist item as `json.dumps(...,
sort_keys=True)` renders it: field keys in sorted order
(`done, key, required, title`), CPython separators. -/
def itemChars (it : ChecklistItem) : List Char :=
  ['{', '"', 'd', 'o', 'n', 'e', '"', ':', ' '] ++ boolChars it.done ++
    [',', ' ', '"', 'k', 'e', 'y', '"', ':', ' ', '"'] ++ esc it.key.data ++
    ['"', ',', ' ', '"', 'r', 'e', 'q', 'u', 'i', 'r', 'e', 'd', '"', ':', ' '] ++
    boolChars it.required ++
    [',', ' ', '"', 't', 'i', 't', 'l', 'e', '"', ':', ' ', '"'] ++ esc it.title.data ++
    ['"', '}']

/-- The serialized checklist array body: items in order, `", "` separators. -/
def serItems : List ChecklistItem → List Char
  | [] => []
  | [i] => itemChars i
  | i :: j :: rest => itemChars i ++ ',' :: ' ' :: serItems (j :: rest)

/-- A minimal creation request (the spec's `{order_item_id: "OI-1",
service_type: "WCHR"}` example), used to instantiate the theorems below. -/
def dataEx : TaskCreate :=
  { order_item_id := "OI-1", service_type := "WCHR", provider_id := none, location := none,
    flight := none, customer_hint := none, checklist := none, sla_due_at := none }

/-- The same request as a raw body with every optional field absent. -/
def rawEx : RawTaskCreate :=
  { order_item_id := "OI-1", service_type := "WCHR", provider_id := .absent,
    location := .absent, flight := .absent, customer_hint := .absent, checklist := .absent,
    sla_due_at := .absent }

def itemA : ChecklistItem := { key := "a", title := "Board", required := true, done := false }

def itemB : ChecklistItem := { key := "b", title := "Seat", required := true, done := false }

/-- A freshly created task row in status `new`. -/
def taskNew : Task :=
  { id := 0, order_item_id := "OI-1", service_type := "WCHR", provider_id := none,
    location := none, flight := none, customer_hint := none, status := .new,
    checklist := some (.arr []), sla_due_at := none, created_at := 0, updated_at := 0 }

def taskAssigned : Task := { taskNew with id := 1, status := .assigned }

def taskDone : Task := { taskNew with id := 2, status := .done }

/-- A store holding one task of each of the statuses used by the witnesses. -/
def dbMix : DB :=
  { tasks := [taskNew, taskAssigned, taskDone],
    events := [{ task_id := 0, code := "CREATED", payload := none }], next_id := 3 }

/-- A store holding a single task in status `new`. -/
def dbNew : DB :=
  { tasks := [taskNew], events := [{ task_id := 0, code := "CREATED", payload := none }],
    next_id := 1 }

/-! ## Theorems -/

/-- Valid Unicode scalar values exclude the surrogate range. -/
theorem char_toNat_valid (c : Char) :
    c.toNat < 55296 ∨ (57343 < c.toNat ∧ c.toNat < 1114112) := by
  have hv := c.valid
  simp only [UInt32.isValidChar, Nat.isValidChar] at hv
  exact hv

theorem hexVal_hexDig {n : Nat} (h : n < 16) : hexVal (hexDig n) = n := by
  interval_cases n <;> rfl

theorem hex4_decode (n : Nat) (h : n < 65536) :
    ((hexVal (hexDig (n / 4096 % 16)) * 16 + hexVal (hexDig (n / 256 % 16))) * 16 +
        hexVal (hexDig (n / 16 % 16))) * 16 + hexVal (hexDig (n % 16)) = n := by
  rw [hexVal_hexDig (by omega), hexVal_hexDig (by omega), hexVal_hexDig (by omega),
    hexVal_hexDig (by omega)]
  omega

-- Reading a `\uXXXX` escape that does not open a surrogate pair.
set_option maxHeartbeats 1600000 in
theorem decodeOne_u (a1 a2 a3 a4 : Char) (rest : List Char)
    (hno : ¬(55296 ≤ ((hexVal a1 * 16 + hexVal a2) * 16 + hexVal a3) * 16 + hexVal a4 ∧
      ((hexVal a1 * 16 + hexVal a2) * 16 + hexVal a3) * 16 + hexVal a4 < 56320)) :
    decodeOne ('\\' :: 'u' :: a1 :: a2 :: a3 :: a4 :: rest) =
      some (Char.ofNat (((hexVal a1 * 16 + hexVal a2) * 16 + hexVal a3) * 16 + hexVal a4),
        rest) := by
  show (if 55296 ≤ ((hexVal a1 * 16 + hexVal a2) * 16 + hexVal a3) * 16 + hexVal a4 ∧
      ((hexVal a1 * 16 + hexVal a2) * 16 + hexVal a3) * 16 + hexVal a4 < 56320 then _ else _) = _
  rw [if_neg hno]

-- Reading a full surrogate pair `\uXXXX\uXXXX`.
set_option maxHeartbeats 1600000 in
theorem decodeOne_uu (a1 a2 a3 a4 b1 b2 b3 b4 : Char) (rest : List Char)
    (hs : 55296 ≤ ((hexVal a1 * 16 + hexVal a2) * 16 + hexVal a3) * 16 + hexVal a4 ∧
      ((hexVal a1 * 16 + hexVal a2) * 16 + hexVal a3) * 16 + hexVal a4 < 56320) :
    decodeOne ('\\' :: 'u' :: a1 :: a2 :: a3 :: a4 :: '\\' :: 'u' :: b1 :: b2 :: b3 :: b4 :: rest) =
      some (Char.ofNat (65536 +
          (((hexVal a1 * 16 + hexVal a2) * 16 + hexVal a3) * 16 + hexVal a4 - 55296) * 1024 +
          (((hexVal b1 * 16 + hexVal b2) * 16 + hexVal b3) * 16 + hexVal b4 - 56320)),
        rest) := by
  show (if 55296 ≤ ((hexVal a1 * 16 + hexVal a2) * 16 + hexVal a3) * 16 + hexVal a4 ∧
      ((hexVal a1 * 16 + hexVal a2) * 16 + hexVal a3) * 16 + hexVal a4 < 56320 then _ else _) = _
  rw [if_pos hs]
  rfl

-- Reading a `\uXXXX` escape of a scalar value below `0x10000`.
theorem decodeOne_escChar_bmp (c : Char) (r : List Char)
    (hlo : ¬(55296 ≤ c.toNat ∧ c.toNat < 56320)) (hb : c.toNat < 65536) :
    decodeOne ('\\' :: 'u' :: hex4 c.toNat ++ r) = some (c, r) := by
  simp only [hex4, List.cons_append, List.nil_append]
  rw [decodeOne_u _ _ _ _ _ (by rw [hex4_decode c.toNat hb]; exact hlo)]
  rw [hex4_decode c.toNat hb, Char.ofNat_toNat]

-- `decodeOne` inverts `escChar` at the front of any stream: the escape of a
-- character is unambiguous however the stream continues.
set_option maxHeartbeats 1600000 in
theorem decodeOne_escChar (c : Char) (r : List Char) :
    decodeOne (escChar c ++ r) = some (c, r) := by
  have hvalid := char_toNat_valid c
  unfold escChar
  split_ifs with h1 h2 h3 h4 h5 h6 h7 h8 h9 h10
  · subst h1; simp [decodeOne]
  · subst h2; simp [decodeOne]
  · subst h3; simp [decodeOne]
  · subst h4; simp [decodeOne]
  · subst h5; simp [decodeOne]
  · subst h6; simp [decodeOne]
  · subst h7; simp [decodeOne]
  · -- other control characters: a single `\uXXXX` escape
    exact decodeOne_escChar_bmp c r (by omega) (by omega)
  · -- printable ASCII: the character stands for itself
    simp only [List.cons_append, List.nil_append, decodeOne]
    rw [if_neg h2, if_neg h1]
  · -- non-ASCII character in the basic multilingual plane
    exact decodeOne_escChar_bmp c r (by omega) (by omega)
  · -- astral plane: surrogate pair
    simp only [hex4, List.cons_append, List.nil_append, List.append_assoc]
    rw [decodeOne_uu _ _ _ _ _ _ _ _ _
      (by rw [hex4_decode (55296 + (c.toNat - 65536) / 1024) (by omega)]; omega)]
    rw [hex4_decode (55296 + (c.toNat - 65536) / 1024) (by omega),
      hex4_decode (56320 + (c.toNat - 65536) % 1024) (by omega)]
    have harg : 65536 + (55296 + (c.toNat - 65536) / 1024 - 55296) * 1024 +
        (56320 + (c.toNat - 65536) % 1024 - 56320) = c.toNat := by omega
    rw [harg, Char.ofNat_toNat]

theorem decodeOne_quote (r : List Char) : decodeOne ('"' :: r) = none := rfl

/-- An escaped string body followed by its closing quote determines both the
body and the remainder of the stream: the heart of the injectivity of JSON
string serialization. -/
theorem esc_quote_inj {s1 : List Char} : ∀ {s2 r1 r2 : List Char},
    esc s1 ++ '"' :: r1 = esc s2 ++ '"' :: r2 → s1 = s2 ∧ r1 = r2 := by
  induction s1 with
  | nil =>
    intro s2 r1 r2 h
    cases s2 with
    | nil => simpa [esc] using h
    | cons b bs =>
      exfalso
      have hd := congrArg decodeOne h
      rw [esc, esc, List.nil_append, List.append_assoc, decodeOne_quote,
        decodeOne_escChar] at hd
      exact Option.noConfusion hd
  | cons a as ih =>
    intro s2 r1 r2 h
    cases s2 with
    | nil =>
      exfalso
      have hd := congrArg decodeOne h
      rw [esc, esc, List.nil_append, List.append_assoc, decodeOne_quote,
        decodeOne_escChar] at hd
      exact Option.noConfusion hd
    | cons b bs =>
      have hd := congrArg decodeOne h
      rw [esc, esc, List.append_assoc, List.append_assoc, decodeOne_escChar,
        decodeOne_escChar] at hd
      obtain ⟨hab, htail⟩ : a = b ∧ esc as ++ '"' :: r1 = esc bs ++ '"' :: r2 := by
        simpa using hd
      obtain ⟨hs, hr⟩ := ih htail
      exact ⟨by rw [hab, hs], hr⟩

theorem char_eq_of_toNat_eq {a b : Char} (h : a.toNat = b.toNat) : a = b := by
  have ha := Char.ofNat_toNat a
  rw [h, Char.ofNat_toNat] at ha
  exact ha.symm

theorem keyLt_asymm : ∀ (a b : List Char), keyLt a b = true → keyLt b a = false
  | [], [] => by simp [keyLt]
  | [], _ :: _ => by simp [keyLt]
  | _ :: _, [] => by simp [keyLt]
  | a :: as, b :: bs => by
    intro h
    rw [keyLt] at h ⊢
    by_cases h1 : a.toNat < b.toNat
    · rw [if_neg (by omega), if_pos h1]
    · by_cases h2 : b.toNat < a.toNat
      · rw [if_neg h1, if_pos h2] at h; exact absurd h (by simp)
      · rw [if_neg h1, if_neg h2] at h
        rw [if_neg h2, if_neg h1]
        exact keyLt_asymm as bs h

theorem keyLt_irrefl (a : List Char) : keyLt a a = false := by
  cases h : keyLt a a with
  | false => rfl
  | true => exact h.symm.trans (keyLt_asymm a a h)

theorem keyLt_conn : ∀ (a b : List Char), keyLt a b = false → keyLt b a = false → a = b
  | [], [] => fun _ _ => rfl
  | [], _ :: _ => by simp [keyLt]
  | _ :: _, [] => by simp [keyLt]
  | a :: as, b :: bs => by
    intro h1 h2
    rw [keyLt] at h1 h2
    by_cases hab : a.toNat < b.toNat
    · rw [if_pos hab] at h1; exact absurd h1 (by simp)
    · by_cases hba : b.toNat < a.toNat
      · rw [if_pos hba] at h2; exact absurd h2 (by simp)
      · rw [if_neg hab, if_neg hba] at h1
        rw [if_neg hba, if_neg hab] at h2
        rw [char_eq_of_toNat_eq (by omega : a.toNat = b.toNat), keyLt_conn as bs h1 h2]

theorem keyLt_trans : ∀ (a b c : List Char),
    keyLt a b = true → keyLt b c = true → keyLt a c = true
  | [], [], _ => by simp [keyLt]
  | [], _ :: _, [] => by simp [keyLt]
  | [], _ :: _, _ :: _ => by simp [keyLt]
  | _ :: _, [], _ => by simp [keyLt]
  | _ :: _, _ :: _, [] => by simp [keyLt]
  | a :: as, b :: bs, c :: cs => by
    intro h1 h2
    rw [keyLt] at h1 h2 ⊢
    by_cases hab : a.toNat < b.toNat <;> by_cases hbc : b.toNat < c.toNat
    · rw [if_pos (by omega)]
    · by_cases hcb : c.toNat < b.toNat
      · rw [if_neg hbc, if_pos hcb] at h2; exact absurd h2 (by simp)
      · rw [if_pos (by omega : a.toNat < c.toNat)]
    · by_cases hba : b.toNat < a.toNat
      · rw [if_neg hab, if_pos hba] at h1; exact absurd h1 (by simp)
      · rw [if_pos (by omega : a.toNat < c.toNat)]
    · by_cases hba : b.toNat < a.toNat
      · rw [if_neg hab, if_pos hba] at h1; exact absurd h1 (by simp)
      · by_cases hcb : c.toNat < b.toNat
        · rw [if_neg hbc, if_pos hcb] at h2; exact absurd h2 (by simp)
        · rw [if_neg hab, if_neg hba] at h1
          rw [if_neg hbc, if_neg hcb] at h2
          rw [if_neg (by omega), if_neg (by omega)]
          exact keyLt_trans as bs cs h1 h2


/-! ### State machine (`set_status`) -/

/-- No allowed-transition set of `service.py` contains `cancelled` as a
target. -/
theorem cancelled_not_allowed (s : TaskStatus) : TaskStatus.cancelled ∉ allowedNext s := by
  cases s <;> simp [allowedNext, ALLOWED_TRANSITIONS]

/-- Shared shape lemma: a looked-up task whose current status does not allow
the requested target makes `set_status` raise `InvalidStatusTransition` and
return the store unchanged. -/
theorem set_status_not_allowed (db : DB) (task_id : Nat) (task : Task)
    (hfind : db.tasks.find? (fun t => t.id == task_id) = some task)
    (target : TaskStatus) (hne : target ≠ task.status)
    (hnot : target ∉ allowedNext task.status) (event : String) (payload : Option Json)
    (now : Int) :
    set_status db task_id target event payload now =
      (.error (.invalidStatusTransition task.status target), db) := by
  simp only [set_status, hfind]
  rw [if_neg hne, if_neg hnot]

/-- Shared shape lemma: `set_status` on an id that matches no row. -/
theorem set_status_not_found (db : DB) (task_id : Nat)
    (hfind : db.tasks.find? (fun t => t.id == task_id) = none)
    (target : TaskStatus) (event : String) (payload : Option Json) (now : Int) :
    set_status db task_id target event payload now = (.error .noResultFound, db) := by
  simp only [set_status, hfind]

/-- Shared shape lemma: the self-transition fast path of `set_status`. -/
theorem set_status_self (db : DB) (task_id : Nat) (task : Task)
    (hfind : db.tasks.find? (fun t => t.id == task_id) = some task)
    (event : String) (payload : Option Json) (now : Int) :
    set_status db task_id task.status event payload now = (.ok task, db) := by
  simp [set_status, hfind]

/-- Shared shape lemma: an allowed transition updates the row, refreshes
`updated_at`, and appends exactly one event with the supplied code. -/
theorem set_status_ok_shape (db : DB) (task_id : Nat) (task : Task)
    (hfind : db.tasks.find? (fun t => t.id == task_id) = some task)
    (target : TaskStatus) (hne : target ≠ task.status)
    (hmem : target ∈ allowedNext task.status) (event : String) (payload : Option Json)
    (now : Int) :
    set_status db task_id target event payload now =
      (.ok { task with status := target, updated_at := now },
        { db with
          tasks := db.tasks.map fun t =>
            if t.id == task_id then { t with status := target, updated_at := now } else t
          events := db.events ++
            [{ task_id := task_id, code := event, payload := _jsonable payload }] }) := by
  simp only [set_status, hfind]
  rw [if_neg hne, if_pos hmem]

/-- C3: for every (current, target) pair not in the allow-list with target
distinct from current, `transition` fails with `InvalidStatusTransition`
carrying the pair (current, attempted); the store — hence the stored status,
`updated_at`, and the event log — is returned unchanged. -/
theorem claim3_invalid_transition_rejected (db : DB) (task_id : Nat) (task : Task)
    (hfind : db.tasks.find? (fun t => t.id == task_id) = some task)
    (target : TaskStatus) (hne : target ≠ task.status)
    (hnot : target ∉ allowedNext task.status) (event : String) (payload : Option Json)
    (now : Int) :
    set_status db task_id target event payload now =
      (.error (.invalidStatusTransition task.status target), db) :=
  set_status_not_allowed db task_id task hfind target hne hnot event payload now

theorem claim3_witness :
    set_status dbMix 1 .done "COMPLETED" none 5 =
      (.error (.invalidStatusTransition .assigned .done), dbMix) := by
  have h := claim3_invalid_transition_rejected dbMix 1 taskAssigned rfl .done
    (by decide) (by decide) "COMPLETED" none 5
  exact h

/-- C4: a `transition` on a task id that matches no row fails with the
not-found error (`scalar_one` raising `NoResultFound`) and the store is
returned unchanged — no task row is touched and no event is appended. -/
theorem claim4_missing_task_not_found (db : DB) (task_id : Nat)
    (hfind : db.tasks.find? (fun t => t.id == task_id) = none)
    (target : TaskStatus) (event : String) (payload : Option Json) (now : Int) :
    set_status db task_id target event payload now = (.error .noResultFound, db) :=
  set_status_not_found db task_id hfind target event payload now

theorem claim4_witness :
    set_status dbMix 99 .assigned "ACCEPTED" none 5 = (.error .noResultFound, dbMix) :=
  claim4_missing_task_not_found dbMix 99 rfl .assigned "ACCEPTED" none 5

/-- C5: from each terminal status (`done`, `failed`, and also `cancelled`,
which has no entry in `ALLOWED_TRANSITIONS` so `.get(status, set())` yields
the empty set) every transition attempt to a different target fails and the
store is unchanged. -/
theorem claim5_terminal_no_exit (db : DB) (task_id : Nat) (task : Task)
    (hfind : db.tasks.find? (fun t => t.id == task_id) = some task)
    (hterm : task.status = .done ∨ task.status = .failed ∨ task.status = .cancelled)
    (target : TaskStatus) (hne : target ≠ task.status) (event : String)
    (payload : Option Json) (now : Int) :
    set_status db task_id target event payload now =
      (.error (.invalidStatusTransition task.status target), db) := by
  refine set_status_not_allowed db task_id task hfind target hne ?_ event payload now
  rcases hterm with h | h | h <;> rw [h] <;> simp [allowedNext, ALLOWED_TRANSITIONS]

theorem claim5_witness :
    set_status dbMix 2 .new "RESET" none 5 =
      (.error (.invalidStatusTransition .done .new), dbMix) :=
  claim5_terminal_no_exit dbMix 2 taskDone rfl (Or.inl rfl) .new (by decide) "RESET" none 5

/-- C6: a `transition` whose target equals the task's current status succeeds
as a no-op: the task is returned as stored and the store — status,
`updated_at`, event log — is unchanged. -/
theorem claim6_self_transition_noop (db : DB) (task_id : Nat) (task : Task)
    (hfind : db.tasks.find? (fun t => t.id == task_id) = some task)
    (event : String) (payload : Option Json) (now : Int) :
    set_status db task_id task.status event payload now = (.ok task, db) :=
  set_status_self db task_id task hfind event payload now

theorem claim6_witness :
    set_status dbMix 1 .assigned "ACCEPTED" none 5 = (.ok taskAssigned, dbMix) :=
  claim6_self_transition_noop dbMix 1 taskAssigned rfl "ACCEPTED" none 5

/-- C1 (code bug): the spec's allow-list (and the repository's own test
`tests/test_service.py`) includes `cancelled` as a target of `new`,
`assigned` and `in_progress`, but the `ALLOWED_TRANSITIONS` dict of
`service.py` contains no `cancelled` target at all, so `transition` REJECTS
the allow-listed pair `(new, cancelled)` instead of succeeding: evaluating
the code on a task in status `new` with target `cancelled` raises
`InvalidStatusTransition(new, cancelled)` and appends no event.  (For the
pairs without `cancelled` the claim's success behaviour is recovered by
`claim2`-style runs; the failing pair refutes the claim as stated.) -/
theorem claim1_cancelled_target_rejected :
    set_status dbNew 0 .cancelled "CANCELLED" none 7 =
      (.error (.invalidStatusTransition .new .cancelled), dbNew) := rfl
/-! ### Ingestion helpers and reachability (`create_task`, C9) -/

/-- A stored duplicate short-circuits `create_task`: the matching task is
returned and the store is untouched. -/
theorem create_task_dup (db : DB) (data : TaskCreate) (now : Int) (t : Task)
    (h : findDuplicate db data = some t) : create_task db data now = (t, db) := by
  simp only [create_task, h]

/-- Without a duplicate, `create_task` inserts exactly one row and appends
exactly one `CREATED` event. -/
theorem create_task_fresh (db : DB) (data : TaskCreate) (now : Int)
    (h : findDuplicate db data = none) :
    create_task db data now =
      (mkNewTask db data now,
        { tasks := db.tasks ++ [mkNewTask db data now]
          events := db.events ++ [{ task_id := db.next_id, code := "CREATED", payload := none }]
          next_id := db.next_id + 1 }) := by
  simp only [create_task, h]

/-- The row inserted by `create_task` carries the default status `new`. -/
theorem status_mkNewTask (db : DB) (data : TaskCreate) (now : Int) :
    (mkNewTask db data now).status = .new := rfl

/-- C9 (implicit): although `cancelled` is a member of the status enumeration
and of the public interface's transmitted values, it is unreachable in the
code as written — every task is created with status `new`, and no sequence of
`create_task` / `set_status` operations can ever store status `cancelled`,
because no allowed-transition set contains it as a target. -/
theorem claim9_cancelled_unreachable (db : DB) (h : Reachable db) :
    ∀ t ∈ db.tasks, t.status ≠ .cancelled := by
  induction h with
  | init => intro t ht; exact absurd ht (List.not_mem_nil t)
  | create db1 data now hr ih =>
    intro t ht
    cases hf : findDuplicate db1 data with
    | some t0 =>
      rw [create_task_dup db1 data now t0 hf] at ht
      exact ih t ht
    | none =>
      rw [create_task_fresh db1 data now hf] at ht
      rcases List.mem_append.mp ht with hmem | hmem
      · exact ih t hmem
      · rw [List.mem_singleton.mp hmem, status_mkNewTask]
        exact fun hc => TaskStatus.noConfusion hc
  | step db1 task_id new_status event payload now t0 db' hr hset ih =>
    intro t ht
    cases hfind : db1.tasks.find? (fun x => x.id == task_id) with
    | none =>
      rw [set_status_not_found db1 task_id hfind new_status event payload now] at hset
      injection hset with h1 h2
      exact Except.noConfusion h1
    | some task =>
      by_cases heq : new_status = task.status
      · rw [heq, set_status_self db1 task_id task hfind event payload now] at hset
        injection hset with h1 h2
        rw [← h2] at ht
        exact ih t ht
      · by_cases hmem : new_status ∈ allowedNext task.status
        · rw [set_status_ok_shape db1 task_id task hfind new_status heq hmem
            event payload now] at hset
          injection hset with h1 h2
          rw [← h2] at ht
          rcases List.mem_map.mp ht with ⟨x, hx, hfx⟩
          by_cases hid : (x.id == task_id) = true
          · rw [if_pos hid] at hfx
            rw [← hfx]
            exact fun hc => cancelled_not_allowed task.status (hc ▸ hmem)
          · rw [if_neg hid] at hfx
            rw [← hfx]
            exact ih x hx
        · rw [set_status_not_allowed db1 task_id task hfind new_status heq hmem
            event payload now] at hset
          injection hset with h1 h2
          exact Except.noConfusion h1

theorem claim9_witness :
    mkNewTask { tasks := [], events := [], next_id := 0 } dataEx 0 ∈
      (create_task { tasks := [], events := [], next_id := 0 } dataEx 0).2.tasks ∧
    (mkNewTask { tasks := [], events := [], next_id := 0 } dataEx 0).status ≠ .cancelled := by
  have hmem : mkNewTask { tasks := [], events := [], next_id := 0 } dataEx 0 ∈
      (create_task { tasks := [], events := [], next_id := 0 } dataEx 0).2.tasks := by
    rw [show (create_task { tasks := [], events := [], next_id := 0 } dataEx 0).2.tasks =
      [mkNewTask { tasks := [], events := [], next_id := 0 } dataEx 0] from rfl]
    exact List.mem_singleton.mpr rfl
  exact ⟨hmem, claim9_cancelled_unreachable _
    (Reachable.create { tasks := [], events := [], next_id := 0 } dataEx 0 Reachable.init) _ hmem⟩
/-- The signature recomputed from the row `create_task` stores equals the
incoming request's signature. -/
theorem storedSignature_mkNewTask (db : DB) (data : TaskCreate) (now : Int) :
    storedSignature (mkNewTask db data now) = requestSignature data := rfl

/-- Shared dedup lemma: if the store has no duplicate for `d1`, then after
creating `d1` any request `d2` with the same candidate keys and an equal
signature is answered with the task created for `d1`, and the store is not
changed further. -/
theorem create_task_dedup (db : DB) (d1 d2 : TaskCreate) (now now2 : Int)
    (hoi : d2.order_item_id = d1.order_item_id) (hst : d2.service_type = d1.service_type)
    (hsig : requestSignature d2 = requestSignature d1)
    (hno : findDuplicate db d1 = none) :
    create_task (create_task db d1 now).2 d2 now2 =
      ((create_task db d1 now).1, (create_task db d1 now).2) := by
  rw [create_task_fresh db d1 now hno]
  have hfd : findDuplicate
      { tasks := db.tasks ++ [mkNewTask db d1 now]
        events := db.events ++ [{ task_id := db.next_id, code := "CREATED", payload := none }]
        next_id := db.next_id + 1 } d2 = some (mkNewTask db d1 now) := by
    unfold findDuplicate
    simp only [hoi, hst, hsig]
    rw [List.filter_append, List.find?_append]
    have h1 : (db.tasks.filter fun t =>
        t.order_item_id == d1.order_item_id && t.service_type == d1.service_type).find?
        (fun t => decide (storedSignature t = requestSignature d1)) = none := hno
    have h2 : List.filter (fun t =>
        t.order_item_id == d1.order_item_id && t.service_type == d1.service_type)
        [mkNewTask db d1 now] = [mkNewTask db d1 now] := by
      simp [mkNewTask]
    have h3 : List.find? (fun t => decide (storedSignature t = requestSignature d1))
        [mkNewTask db d1 now] = some (mkNewTask db d1 now) := by
      simp [List.find?, storedSignature_mkNewTask]
    rw [h1, h2, h3]
    rfl
  rw [create_task_dup _ d2 now2 _ hfd]

/-- C2: resubmitting an identical creation payload returns the task created
by the first call (same task, hence same id), leaves the store exactly as
after the first call (no insert, no event), and across both calls exactly one
task row was inserted and exactly one `CREATED` event was appended. -/
theorem claim2_idempotent_create (db : DB) (data : TaskCreate) (now now2 : Int)
    (hno : findDuplicate db data = none) :
    (create_task (create_task db data now).2 data now2).1 = (create_task db data now).1 ∧
    (create_task (create_task db data now).2 data now2).2 = (create_task db data now).2 ∧
    (create_task db data now).2.tasks.length = db.tasks.length + 1 ∧
    ((create_task db data now).2.events.filter fun e => e.code == "CREATED").length =
      (db.events.filter fun e => e.code == "CREATED").length + 1 := by
  have hd := create_task_dedup db data data now now2 rfl rfl rfl hno
  refine ⟨by rw [hd], by rw [hd], ?_, ?_⟩
  · rw [create_task_fresh db data now hno]
    simp
  · rw [create_task_fresh db data now hno]
    simp [List.filter_append]

theorem claim2_witness :
    (create_task (create_task { tasks := [], events := [], next_id := 0 } dataEx 0).2
        dataEx 1).1 =
      (create_task { tasks := [], events := [], next_id := 0 } dataEx 0).1 ∧
    (create_task (create_task { tasks := [], events := [], next_id := 0 } dataEx 0).2
        dataEx 1).2 =
      (create_task { tasks := [], events := [], next_id := 0 } dataEx 0).2 ∧
    (create_task { tasks := [], events := [], next_id := 0 } dataEx 0).2.tasks.length =
      ([] : List Task).length + 1 ∧
    ((create_task { tasks := [], events := [], next_id := 0 } dataEx 0).2.events.filter
        fun e => e.code == "CREATED").length =
      (([] : List TaskEvent).filter fun e => e.code == "CREATED").length + 1 :=
  claim2_idempotent_create { tasks := [], events := [], next_id := 0 } dataEx 0 1 rfl
/-! ### Key-sorted serialization is presentation-order independent (C7, C10) -/

theorem insertPair_perm (p : String × List Char) (l : List (String × List Char)) :
    (insertPair p l).Perm (p :: l) := by
  induction l with
  | nil => exact List.Perm.refl _
  | cons q rest ih =>
    rw [insertPair]
    split_ifs with h
    · exact (ih.cons q).trans (List.Perm.swap p q rest)
    · exact List.Perm.refl _

theorem sortPairs_perm (l : List (String × List Char)) : (sortPairs l).Perm l := by
  induction l with
  | nil => exact List.Perm.refl _
  | cons p rest ih => exact (insertPair_perm p (sortPairs rest)).trans (ih.cons p)

theorem keyLt_le_trans {a b c : List Char} (h1 : keyLt b a = false)
    (h2 : keyLt c b = false) : keyLt c a = false := by
  cases hca : keyLt c a with
  | false => rfl
  | true =>
    cases hbc : keyLt b c with
    | true => exact absurd (keyLt_trans b c a hbc hca) (by simp [h1])
    | false =>
      have hb := keyLt_conn b c hbc h2
      rw [← hb] at hca
      exact absurd hca (by simp [h1])

theorem insertPair_sorted (p : String × List Char) (l : List (String × List Char))
    (hl : l.Pairwise fun x y => keyLt y.1.data x.1.data = false) :
    (insertPair p l).Pairwise fun x y => keyLt y.1.data x.1.data = false := by
  induction l with
  | nil => simp [insertPair]
  | cons q rest ih =>
    rw [insertPair]
    rcases List.pairwise_cons.mp hl with ⟨hq, hrest⟩
    split_ifs with h
    · refine List.pairwise_cons.mpr ⟨?_, ih hrest⟩
      intro x hx
      rcases List.mem_cons.mp ((insertPair_perm p rest).mem_iff.mp hx) with hxp | hxr
      · rw [hxp]; exact keyLt_asymm _ _ h
      · exact hq x hxr
    · refine List.pairwise_cons.mpr ⟨?_, hl⟩
      intro x hx
      have hqp : keyLt q.1.data p.1.data = false := by
        cases hv : keyLt q.1.data p.1.data with
        | false => rfl
        | true => exact absurd hv h
      rcases List.mem_cons.mp hx with hxq | hxr
      · rw [hxq]; exact hqp
      · exact keyLt_le_trans hqp (hq x hxr)

theorem sortPairs_sorted (l : List (String × List Char)) :
    (sortPairs l).Pairwise fun x y => keyLt y.1.data x.1.data = false := by
  induction l with
  | nil => simp [sortPairs]
  | cons p rest ih => exact insertPair_sorted p (sortPairs rest) ih

/-- With pairwise-distinct keys (always true of Python dicts), key-sorting is
insensitive to the presentation order of the fields. -/
theorem sortPairs_eq_of_perm {x y : List (String × List Char)} (hp : x.Perm y)
    (hnd : (x.map Prod.fst).Nodup) : sortPairs x = sortPairs y := by
  haveI : IsAntisymm (String × List Char) (fun p q => keyLt p.1.data q.1.data = true) :=
    ⟨fun a b h1 h2 => absurd h2 (by simp [keyLt_asymm _ _ h1])⟩
  have hperm : (sortPairs x).Perm (sortPairs y) :=
    (sortPairs_perm x).trans (hp.trans (sortPairs_perm y).symm)
  have hndx : ((sortPairs x).map Prod.fst).Nodup :=
    (((sortPairs_perm x).map Prod.fst).nodup_iff).mpr hnd
  have hndy : ((sortPairs y).map Prod.fst).Nodup :=
    (((sortPairs_perm y).map Prod.fst).nodup_iff).mpr ((hp.map Prod.fst).nodup_iff.mp hnd)
  have hstrict : ∀ (z : List (String × List Char)),
      z.Pairwise (fun p q => keyLt q.1.data p.1.data = false) →
      (z.map Prod.fst).Nodup →
      z.Pairwise fun p q => keyLt p.1.data q.1.data = true := by
    intro z hs hnz
    have hne : z.Pairwise fun p q => p.1 ≠ q.1 := List.pairwise_map.mp hnz
    refine (hs.and hne).imp ?_
    rintro a b ⟨h1, h2⟩
    cases hab : keyLt a.1.data b.1.data with
    | true => rfl
    | false => exact absurd (String.ext (keyLt_conn _ _ hab h1)) h2
  exact List.eq_of_perm_of_sorted hperm
    (hstrict _ (sortPairs_sorted x) hndx) (hstrict _ (sortPairs_sorted y) hndy)

theorem dumpsPairs_eq_map (l : List (String × Json)) :
    dumpsPairs l = l.map fun kv => (kv.1, dumps kv.2) := by
  induction l with
  | nil => rfl
  | cons kv rest ih => cases kv; simp [dumpsPairs, ih]

/-- `json.dumps(..., sort_keys=True)` yields the same string on two objects
holding the same fields in different presentation order. -/
theorem dumps_obj_of_perm {l1 l2 : List (String × Json)} (hp : l1.Perm l2)
    (hnd : (l1.map Prod.fst).Nodup) : dumps (.obj l1) = dumps (.obj l2) := by
  have hp' : (dumpsPairs l1).Perm (dumpsPairs l2) := by
    rw [dumpsPairs_eq_map, dumpsPairs_eq_map]
    exact hp.map _
  have hnd' : ((dumpsPairs l1).map Prod.fst).Nodup := by
    rw [dumpsPairs_eq_map, List.map_map]
    exact hnd
  show '{' :: dumpsObj (sortPairs (dumpsPairs l1)) ++ ['}'] =
    '{' :: dumpsObj (sortPairs (dumpsPairs l2)) ++ ['}']
  rw [sortPairs_eq_of_perm hp' hnd']

/-- C7: the canonical signature is null/absent-consistent and
key-order-insensitive.  (a) A request omitting `location` and an otherwise
identical request passing an explicit null produce identical signatures, and
submitting the second after the first returns the task created by the first
— a duplicate, not a second creation.  (b) Two free-form `customer_hint`
maps holding the same key-value pairs in different presentation order
produce identical signatures. -/
theorem claim7_canonical_signature :
    (∀ (r : RawTaskCreate) (now now2 : Int),
      requestSignature (parseTaskCreate { r with location := .absent }) =
        requestSignature (parseTaskCreate { r with location := .null }) ∧
      create_task
          (create_task { tasks := [], events := [], next_id := 0 }
            (parseTaskCreate { r with location := .absent }) now).2
          (parseTaskCreate { r with location := .null }) now2 =
        ((create_task { tasks := [], events := [], next_id := 0 }
            (parseTaskCreate { r with location := .absent }) now).1,
          (create_task { tasks := [], events := [], next_id := 0 }
            (parseTaskCreate { r with location := .absent }) now).2)) ∧
    (∀ (d : TaskCreate) (l1 l2 : List (String × Json)), l1.Perm l2 →
      (l1.map Prod.fst).Nodup →
      requestSignature { d with customer_hint := some l1 } =
        requestSignature { d with customer_hint := some l2 }) := by
  constructor
  · intro r now now2
    exact ⟨rfl, create_task_dedup _ _ _ now now2 rfl rfl rfl rfl⟩
  · intro d l1 l2 hp hnd
    unfold requestSignature _payload_signature
    simp only [_jsonable, Option.map_some', _dump]
    rw [dumps_obj_of_perm hp hnd]

theorem claim7_witness :
    (requestSignature (parseTaskCreate { rawEx with location := .absent }) =
      requestSignature (parseTaskCreate { rawEx with location := .null })) ∧
    (requestSignature { dataEx with
        customer_hint := some [("partySize", .int 2), ("nameMasked", .str "J*")] } =
      requestSignature { dataEx with
        customer_hint := some [("nameMasked", .str "J*"), ("partySize", .int 2)] }) :=
  ⟨(claim7_canonical_signature.1 rawEx 0 1).1,
    claim7_canonical_signature.2 dataEx _ _
      (List.Perm.swap (("nameMasked", Json.str "J*") : String × Json)
        (("partySize", Json.int 2) : String × Json) [])
      (by decide)⟩

/-- C10 (implicit): an absent checklist is normalized to the empty list
before signing and storage: a request omitting `checklist` (or passing an
explicit null for it) and an otherwise-identical request passing an explicit
empty checklist produce identical signatures, and the later request is
answered with the task created by the earlier one. -/
theorem claim10_absent_checklist_empty (r : RawTaskCreate) (now now2 : Int) :
    requestSignature (parseTaskCreate { r with checklist := .absent }) =
      requestSignature (parseTaskCreate { r with checklist := .val [] }) ∧
    requestSignature (parseTaskCreate { r with checklist := .null }) =
      requestSignature (parseTaskCreate { r with checklist := .val [] }) ∧
    create_task
        (create_task { tasks := [], events := [], next_id := 0 }
          (parseTaskCreate { r with checklist := .absent }) now).2
        (parseTaskCreate { r with checklist := .val [] }) now2 =
      ((create_task { tasks := [], events := [], next_id := 0 }
          (parseTaskCreate { r with checklist := .absent }) now).1,
        (create_task { tasks := [], events := [], next_id := 0 }
          (parseTaskCreate { r with checklist := .absent }) now).2) :=
  ⟨rfl, rfl, create_task_dedup _ _ _ now now2 rfl rfl rfl rfl⟩

theorem claim10_witness :
    requestSignature (parseTaskCreate { rawEx with checklist := .absent }) =
      requestSignature (parseTaskCreate { rawEx with checklist := .val [] }) :=
  (claim10_absent_checklist_empty rawEx 0 1).1
/-! ### Checklist order is significant (C8) -/

theorem dumps_encodeChecklistItem (it : ChecklistItem) :
    dumps (encodeChecklistItem it) = itemChars it := by
  obtain ⟨k, t, rq, d⟩ := it
  have hsort : sortPairs (dumpsPairs [("key", Json.str k), ("title", Json.str t),
      ("required", Json.bool rq), ("done", Json.bool d)]) =
      [("done", boolChars d), ("key", '"' :: esc k.data ++ ['"']),
        ("required", boolChars rq), ("title", '"' :: esc t.data ++ ['"'])] := rfl
  have hd : esc "done".data = ['d', 'o', 'n', 'e'] := rfl
  have hk : esc "key".data = ['k', 'e', 'y'] := rfl
  have hr : esc "required".data = ['r', 'e', 'q', 'u', 'i', 'r', 'e', 'd'] := rfl
  have ht : esc "title".data = ['t', 'i', 't', 'l', 'e'] := rfl
  show '{' :: dumpsObj (sortPairs (dumpsPairs _)) ++ ['}'] = _
  rw [hsort]
  simp only [dumpsObj, itemChars, hd, hk, hr, ht, List.append_assoc, List.cons_append,
    List.nil_append]
/-- Serialized checklist items are mutually unambiguous: an item's rendering
followed by any remainder determines both. -/
theorem itemChars_inj (i1 i2 : ChecklistItem) (r1 r2 : List Char)
    (h : itemChars i1 ++ r1 = itemChars i2 ++ r2) : i1 = i2 ∧ r1 = r2 := by
  obtain ⟨k1, t1, rq1, d1⟩ := i1
  obtain ⟨k2, t2, rq2, d2⟩ := i2
  simp only [itemChars, List.append_assoc, List.cons_append, List.nil_append] at h
  cases d1 <;> cases d2 <;> simp only [boolChars, List.cons_append] at h
  all_goals simp at h
  all_goals (
    obtain ⟨hk, h⟩ := esc_quote_inj h
    rw [String.ext hk]
    cases rq1 <;> cases rq2 <;> simp only [boolChars, List.cons_append] at h
    all_goals simp at h
    all_goals (
      obtain ⟨ht, h⟩ := esc_quote_inj h
      simp at h
      exact ⟨by rw [String.ext ht], h⟩))

theorem serItems_cons_head (i : ChecklistItem) (rest : List ChecklistItem) :
    ∃ tl, serItems (i :: rest) = '{' :: tl := by
  cases rest with
  | nil => exact ⟨_, rfl⟩
  | cons j js => exact ⟨_, rfl⟩

theorem dumpsArr_items : ∀ c : List ChecklistItem,
    dumpsArr (c.map encodeChecklistItem) = serItems c
  | [] => rfl
  | [i] => by
    show dumps (encodeChecklistItem i) = _
    rw [dumps_encodeChecklistItem]
    rfl
  | i :: j :: rest => by
    show dumps (encodeChecklistItem i) ++ ',' :: ' ' ::
      dumpsArr ((j :: rest).map encodeChecklistItem) = _
    rw [dumps_encodeChecklistItem, dumpsArr_items (j :: rest)]
    rfl

/-- The rendered checklist array determines the checklist. -/
theorem serItems_inj : ∀ (c1 c2 : List ChecklistItem) (r1 r2 : List Char),
    serItems c1 ++ ']' :: r1 = serItems c2 ++ ']' :: r2 → c1 = c2 ∧ r1 = r2
  | [], [], r1, r2 => by
    intro h
    simp only [serItems, List.nil_append] at h
    exact ⟨rfl, by simpa using h⟩
  | [], i :: rest, r1, r2 => by
    intro h
    obtain ⟨tl, htl⟩ := serItems_cons_head i rest
    rw [show serItems ([] : List ChecklistItem) = [] from rfl, htl] at h
    simp at h
  | i :: rest, [], r1, r2 => by
    intro h
    obtain ⟨tl, htl⟩ := serItems_cons_head i rest
    rw [show serItems ([] : List ChecklistItem) = [] from rfl, htl] at h
    simp at h
  | i :: rest1, j :: rest2, r1, r2 => by
    intro h
    rcases rest1 with _ | ⟨x1, xs1⟩ <;> rcases rest2 with _ | ⟨x2, xs2⟩
    · simp only [serItems] at h
      obtain ⟨hij, h⟩ := itemChars_inj i j _ _ h
      exact ⟨by rw [hij], by simpa using h⟩
    · simp only [serItems, List.append_assoc, List.cons_append] at h
      obtain ⟨hij, h⟩ := itemChars_inj i j _ _ h
      simp at h
    · simp only [serItems, List.append_assoc, List.cons_append] at h
      obtain ⟨hij, h⟩ := itemChars_inj i j _ _ h
      simp at h
    · simp only [serItems, List.append_assoc, List.cons_append] at h
      obtain ⟨hij, h⟩ := itemChars_inj i j _ _ h
      simp at h
      obtain ⟨hs, hr⟩ := serItems_inj (x1 :: xs1) (x2 :: xs2) r1 r2 h
      exact ⟨by rw [hij, hs], hr⟩

/-- `json.dumps` is injective on encoded checklists: two checklists with the
same serialization are the same list in the same order. -/
theorem dumps_checklist_inj {c1 c2 : List ChecklistItem}
    (h : dumps (.arr (c1.map encodeChecklistItem)) =
      dumps (.arr (c2.map encodeChecklistItem))) : c1 = c2 := by
  have h' : '[' :: (dumpsArr (c1.map encodeChecklistItem) ++ [']']) =
      '[' :: (dumpsArr (c2.map encodeChecklistItem) ++ [']']) := h
  rw [dumpsArr_items, dumpsArr_items] at h'
  have h2 : serItems c1 ++ ']' :: ([] : List Char) = serItems c2 ++ ']' :: [] := by
    simpa using h'
  exact (serItems_inj c1 c2 [] [] h2).1
/-- C8: checklist order is semantically significant to deduplication: two
creation requests identical except for the order of their checklist items
(a genuine reordering, i.e. a permutation producing a different list)
produce different signatures, so the second request inserts a new, distinct
task — a fresh id and one more row — rather than returning the first. -/
theorem claim8_checklist_order_significant (d : TaskCreate) (c1 c2 : List ChecklistItem)
    (hperm : c1.Perm c2) (hne : c1 ≠ c2) (now now2 : Int) :
    requestSignature { d with checklist := some c1 } ≠
      requestSignature { d with checklist := some c2 } ∧
    (create_task (create_task { tasks := [], events := [], next_id := 0 }
        { d with checklist := some c1 } now).2
        { d with checklist := some c2 } now2).1.id ≠
      (create_task { tasks := [], events := [], next_id := 0 }
        { d with checklist := some c1 } now).1.id ∧
    (create_task (create_task { tasks := [], events := [], next_id := 0 }
        { d with checklist := some c1 } now).2
        { d with checklist := some c2 } now2).2.tasks.length =
      (create_task { tasks := [], events := [], next_id := 0 }
        { d with checklist := some c1 } now).2.tasks.length + 1 := by
  have hsig : requestSignature { d with checklist := some c1 } ≠
      requestSignature { d with checklist := some c2 } := by
    intro he
    apply hne
    apply dumps_checklist_inj
    have hf := congrArg Signature.checklist_s he
    simpa [requestSignature, _payload_signature, _jsonable, _dump, pyOrEmpty] using hf
  have hc1 := create_task_fresh { tasks := [], events := [], next_id := 0 }
    { d with checklist := some c1 } now rfl
  have hfd2 : findDuplicate (create_task { tasks := [], events := [], next_id := 0 }
      { d with checklist := some c1 } now).2 { d with checklist := some c2 } = none := by
    rw [hc1]
    unfold findDuplicate
    have ho : (mkNewTask { tasks := [], events := [], next_id := 0 }
        { d with checklist := some c1 } now).order_item_id = d.order_item_id := rfl
    have hs2 : (mkNewTask { tasks := [], events := [], next_id := 0 }
        { d with checklist := some c1 } now).service_type = d.service_type := rfl
    have hst : storedSignature (mkNewTask { tasks := [], events := [], next_id := 0 }
        { d with checklist := some c1 } now) =
        requestSignature { d with checklist := some c1 } := storedSignature_mkNewTask _ _ _
    simp [List.filter, List.find?, ho, hs2, hst, decide_eq_false hsig]
  have hc2 := create_task_fresh _ { d with checklist := some c2 } now2 hfd2
  refine ⟨hsig, ?_, ?_⟩
  · rw [hc2, hc1]
    simp [mkNewTask]
  · rw [hc2, hc1]
    simp

theorem claim8_witness :
    requestSignature { dataEx with checklist := some [itemA, itemB] } ≠
      requestSignature { dataEx with checklist := some [itemB, itemA] } ∧
    (create_task (create_task { tasks := [], events := [], next_id := 0 }
        { dataEx with checklist := some [itemA, itemB] } 0).2
        { dataEx with checklist := some [itemB, itemA] } 1).1.id ≠
      (create_task { tasks := [], events := [], next_id := 0 }
        { dataEx with checklist := some [itemA, itemB] } 0).1.id ∧
    (create_task (create_task { tasks := [], events := [], next_id := 0 }
        { dataEx with checklist := some [itemA, itemB] } 0).2
        { dataEx with checklist := some [itemB, itemA] } 1).2.tasks.length =
      (create_task { tasks := [], events := [], next_id := 0 }
        { dataEx with checklist := some [itemA, itemB] } 0).2.tasks.length + 1 :=
  claim8_checklist_order_significant dataEx [itemA, itemB] [itemB, itemA]
    (List.Perm.swap itemB itemA []) (by decide) 0 1
end ProviderTasking
